/-
  Verification of the run/trial lifecycle manager of the MLOps repository
  (`tagifai/main.py`): hyperparameter search result selection, artifact
  bundle persistence and reconstruction, structural diffing of parameter
  and performance mappings, reevaluation plumbing, and the module's own
  lexical well-formedness.

  JSON-like values are modelled by `JVal` (numbers as rationals, strings,
  booleans, nested objects); Python dictionaries are association lists
  with first-match lookup.
-/
import Mathlib

set_option maxHeartbeats 1000000

namespace Tagifai

/-- JSON-like values as handled by `utils.save_dict` / `utils.load_dict`:
numeric leaves (modelled as rationals), strings, booleans, and nested
string-keyed mappings. -/
inductive JVal : Type where
  | num (q : Rat)
  | str (s : String)
  | bool (b : Bool)
  | obj (fields : List (String × JVal))

mutual

/-- Structural (deep) equality test on `JVal`. -/
def JVal.beq : JVal → JVal → Bool
  | .num a, .num b => a == b
  | .str a, .str b => a == b
  | .bool a, .bool b => a == b
  | .obj a, .obj b => JVal.beqFields a b
  | _, _ => false

/-- Structural equality test on field lists of `JVal` objects. -/
def JVal.beqFields : List (String × JVal) → List (String × JVal) → Bool
  | [], [] => true
  | (k, v) :: t, (k2, v2) :: t2 => k == k2 && JVal.beq v v2 && JVal.beqFields t t2
  | _, _ => false

end

mutual

theorem JVal.beq_iff_eq : ∀ a b : JVal, JVal.beq a b = true ↔ a = b
  | .num _, .num _ => by simp [JVal.beq]
  | .num _, .str _ => by simp [JVal.beq]
  | .num _, .bool _ => by simp [JVal.beq]
  | .num _, .obj _ => by simp [JVal.beq]
  | .str _, .num _ => by simp [JVal.beq]
  | .str _, .str _ => by simp [JVal.beq]
  | .str _, .bool _ => by simp [JVal.beq]
  | .str _, .obj _ => by simp [JVal.beq]
  | .bool _, .num _ => by simp [JVal.beq]
  | .bool _, .str _ => by simp [JVal.beq]
  | .bool _, .bool _ => by simp [JVal.beq]
  | .bool _, .obj _ => by simp [JVal.beq]
  | .obj _, .num _ => by simp [JVal.beq]
  | .obj _, .str _ => by simp [JVal.beq]
  | .obj _, .bool _ => by simp [JVal.beq]
  | .obj a, .obj b => by simp [JVal.beq, JVal.beqFields_iff_eq a b]

theorem JVal.beqFields_iff_eq :
    ∀ a b : List (String × JVal), JVal.beqFields a b = true ↔ a = b
  | [], [] => by simp [JVal.beqFields]
  | [], _ :: _ => by simp [JVal.beqFields]
  | _ :: _, [] => by simp [JVal.beqFields]
  | (k, v) :: t, (k2, v2) :: t2 => by
      simp [JVal.beqFields, JVal.beq_iff_eq v v2, JVal.beqFields_iff_eq t t2,
        and_assoc]

end

instance : DecidableEq JVal := fun a b => decidable_of_iff _ (JVal.beq_iff_eq a b)

/-- First-match association-list lookup, the model of Python `d[k]` /
`d.get(k)` on a dictionary rendered as its item list. -/
def alookup : List (String × JVal) → String → Option JVal
  | [], _ => none
  | (k, v) :: t, key => if k = key then some v else alookup t key

/-- Key-membership test, the model of Python `k in d`. -/
def hasKey (d : List (String × JVal)) (key : String) : Bool :=
  (alookup d key).isSome

theorem alookup_isSome_of_mem {d : List (String × JVal)} {k : String} {v : JVal}
    (h : (k, v) ∈ d) : (alookup d k).isSome := by
  induction d with
  | nil => simp at h
  | cons hd t ih =>
      rw [List.mem_cons] at h
      rcases h with h | h
      · simp [alookup, ← h]
      · by_cases hk : hd.1 = k <;> simp [alookup, hk, ih h]

theorem alookup_of_mem_nodup {d : List (String × JVal)} {k : String} {v : JVal}
    (hnd : (d.map Prod.fst).Nodup) (h : (k, v) ∈ d) : alookup d k = some v := by
  induction d with
  | nil => simp at h
  | cons hd t ih =>
      simp only [List.map_cons, List.nodup_cons] at hnd
      rw [List.mem_cons] at h
      rcases h with h | h
      · simp [alookup, ← h]
      · have hne : hd.1 ≠ k := by
          intro hk
          exact hnd.1 (hk ▸ List.mem_map_of_mem Prod.fst h)
        simp [alookup, hne, ih hnd.2 h]

/-- The result of a structural diff of two mappings: `added` holds entries
present only in side B, `removed` entries present only in side A, `changed`
keys present on both sides with differing values, paired with both sides'
values (side A first, side B second). -/
structure DiffResult : Type where
  added : List (String × JVal)
  removed : List (String × JVal)
  changed : List (String × JVal × JVal)
  deriving DecidableEq

/-- Modelled from the spec: `utils.dict_diff` (tagifai/utils.py is not under
src/, only its caller `diff` in main.py is). Per §3 and §4.5 of the spec, the
diff is computed over the union of the two mappings' keys: a key only in
`d_b` is `added`, a key only in `d_a` is `removed`, and a key in both whose
values differ (values compared by exact structural equality, recursively for
nested mappings; no numeric tolerance) is `changed`, recording the side-A and
side-B values. -/
def dict_diff (d_a d_b : List (String × JVal)) : DiffResult where
  added := d_b.filter (fun kv => !(hasKey d_a kv.1))
  removed := d_a.filter (fun kv => !(hasKey d_b kv.1))
  changed := d_a.filterMap (fun kv =>
    match alookup d_b kv.1 with
    | none => none
    | some vb => if kv.2 = vb then none else some (kv.1, kv.2, vb))

/-- The GitHub tags API URL built by the `diff` command
(main.py line 210). -/
def tags_url (author repo : String) : String :=
  "https://api.github.com/repos/" ++ author ++ "/" ++ repo ++ "/tags"

/-- Python subscription `v[key]` on a JSON object. -/
def JVal.getField : JVal → String → Option JVal
  | .obj fields, key => alookup fields key
  | _, _ => none

/-- Resolution of `tag_b` in the `diff` command (main.py lines 208-212):
when `tag_b` is the empty string it is replaced by
`load_json_from_url(tags_url)[0]["name"]`, the `name` field of the first
entry of the list fetched from the tags API (modelled by the `apiTags`
argument); a non-empty `tag_b` is used exactly as given. `none` models the
Python `IndexError`/`KeyError` on an empty list or a missing field. -/
def resolve_tag_b (tag_b : String) (apiTags : List JVal) : Option JVal :=
  if tag_b = "" then
    apiTags.head?.bind (fun first => first.getField "name")
  else
    some (.str tag_b)

/-- Model weights plus the dimensions the model was initialized with.
Modelled from the spec: `models.initialize_model` (tagifai/models.py is not
under src/; the architecture itself is out of scope per §1) — the model is
abstracted to its size parameters and a flat weight blob. -/
structure Model : Type where
  vocabSize : Nat
  numClasses : Nat
  weights : List Int
  deriving DecidableEq

/-- The in-memory artifact set produced by `train.train` and returned by
`load_artifacts` (main.py lines 301-307): parameters, label-encoder state
(class names), tokenizer state (vocabulary), model, performance report. -/
structure Artifacts : Type where
  params : List (String × JVal)
  label_encoder : List String
  tokenizer : List String
  model : Model
  performance : List (String × JVal)
  deriving DecidableEq

/-- Contents of one file at an artifact location. `jsonF` is a file that
parses as JSON, `encF`/`tokF` are the self-describing label-encoder and
tokenizer state files, `binF` is the binary weight blob, and `rawF` is
content that parses as none of the recognized formats (a corrupted file). -/
inductive FileContent : Type where
  | jsonF (v : JVal)
  | encF (classes : List String)
  | tokF (vocab : List String)
  | binF (blob : List Int)
  | rawF (s : String)
  deriving DecidableEq

/-- A directory of named files (an artifact location). -/
abbrev Directory : Type := List (String × FileContent)

/-- File lookup inside a directory. -/
def readFile : Directory → String → Option FileContent
  | [], _ => none
  | (n, c) :: t, name => if n = name then some c else readFile t name

/-- Deleting a file from a directory. -/
def removeFile (dir : Directory) (name : String) : Directory :=
  List.filter (fun f => f.1 ≠ name) dir

/-- The error taxonomy of artifact loading (spec §7): unresolvable run id,
missing/invalid bundle component (naming the component file), malformed
JSON configuration. -/
inductive LoadError : Type where
  | runNotFound
  | artifactCorruption (component : String)
  | parseError
  deriving DecidableEq

/-- `utils.load_dict` composed with `Namespace(**d)` as used at main.py
lines 289 and 293. Modelled from the spec: tagifai/utils.py is not under
src/; per §4.1/§4.4 a missing component file is an `ArtifactCorruptionError`
naming the component and a file that does not parse as a JSON mapping is a
`ParseError`. -/
def load_dict (dir : Directory) (name : String) :
    Except LoadError (List (String × JVal)) :=
  match readFile dir name with
  | none => .error (.artifactCorruption name)
  | some (.jsonF (.obj fields)) => .ok fields
  | some _ => .error .parseError

/-- `data.MultiLabelLabelEncoder.load` as used at main.py line 290.
Modelled from the spec: tagifai/data.py is not under src/; a missing or
invalid state file is an `ArtifactCorruptionError` naming the component. -/
def load_label_encoder (dir : Directory) : Except LoadError (List String) :=
  match readFile dir "label_encoder.json" with
  | none => .error (.artifactCorruption "label_encoder.json")
  | some (.encF classes) => .ok classes
  | some _ => .error (.artifactCorruption "label_encoder.json")

/-- `data.Tokenizer.load` as used at main.py line 291. Modelled from the
spec: tagifai/data.py is not under src/. -/
def load_tokenizer (dir : Directory) : Except LoadError (List String) :=
  match readFile dir "tokenizer.json" with
  | none => .error (.artifactCorruption "tokenizer.json")
  | some (.tokF vocab) => .ok vocab
  | some _ => .error (.artifactCorruption "tokenizer.json")

/-- `torch.load` of the weight blob as used at main.py line 292. Modelled
from the spec: the weight file is an opaque binary blob (§6). -/
def load_model_state (dir : Directory) : Except LoadError (List Int) :=
  match readFile dir "model.pt" with
  | none => .error (.artifactCorruption "model.pt")
  | some (.binF blob) => .ok blob
  | some _ => .error (.artifactCorruption "model.pt")

/-- `models.initialize_model` as called at main.py lines 296-298: a model
sized by tokenizer vocabulary cardinality and label-encoder class
cardinality. Modelled from the spec: tagifai/models.py is not under src/;
the weight blob of such a model has `vocab_size * num_classes` entries. -/
def initialize_model (vocab_size num_classes : Nat) : Model :=
  { vocabSize := vocab_size, numClasses := num_classes,
    weights := List.replicate (vocab_size * num_classes) 0 }

/-- `model.load_state_dict` as called at main.py line 299: replaces the
model's weights with the loaded blob, failing (naming the weight component)
when the blob does not fit the model's dimensions. -/
def Model.load_state_dict (m : Model) (blob : List Int) :
    Except LoadError Model :=
  if blob.length = m.vocabSize * m.numClasses then
    .ok { m with weights := blob }
  else
    .error (.artifactCorruption "model.pt")

/-- The five-component bundle written by `train_model` (main.py lines
150-154), in write order: params.json, performance.json,
label_encoder.json, tokenizer.json, model.pt. -/
def write_bundle (a : Artifacts) : Directory :=
  [("params.json", .jsonF (.obj a.params)),
   ("performance.json", .jsonF (.obj a.performance)),
   ("label_encoder.json", .encF a.label_encoder),
   ("tokenizer.json", .tokF a.tokenizer),
   ("model.pt", .binF a.model.weights)]

/-- `load_artifacts` (main.py lines 277-307): resolve the run id to an
artifact location through the run store (`mlflow.get_run`), read the five
components in source order (params, label encoder, tokenizer, model state,
performance), initialize a model sized by vocabulary and class cardinality,
and load the weight blob into it. The store argument models the tracking
backend's run-id → artifact-location resolution; `none` is an unresolvable
run id. -/
def load_artifacts (store : String → Option Directory) (run_id : String) :
    Except LoadError Artifacts :=
  match store run_id with
  | none => .error .runNotFound
  | some dir => do
      let params ← load_dict dir "params.json"
      let label_encoder ← load_label_encoder dir
      let tokenizer ← load_tokenizer dir
      let model_state ← load_model_state dir
      let performance ← load_dict dir "performance.json"
      let model ← (initialize_model tokenizer.length label_encoder.length).load_state_dict model_state
      .ok { params := params, label_encoder := label_encoder,
            tokenizer := tokenizer, model := model, performance := performance }

/-- One step of `train_model`'s artifact-logging block (main.py lines
149-155): five writes into the scoped temporary staging directory `dp`,
then the single publish call `mlflow.log_artifacts(dp)`. -/
inductive TrainStep : Type where
  | writeParams
  | writePerformance
  | writeLabelEncoder
  | writeTokenizer
  | writeModel
  | publish
  deriving DecidableEq

/-- The step sequence of the `with tempfile.TemporaryDirectory()` block in
`train_model`, in source order. -/
def train_log_steps : List TrainStep :=
  [.writeParams, .writePerformance, .writeLabelEncoder, .writeTokenizer,
   .writeModel, .publish]

/-- State of the artifact-logging block: the staging directory's contents
and the run's committed artifact location (`none` until
`mlflow.log_artifacts` runs). -/
structure TrainLogState : Type where
  staging : Directory
  artifactLocation : Option Directory
  deriving DecidableEq

/-- Effect of one step: each write appends its file to the staging
directory; `publish` commits the staging contents as the run's artifact
location in one call. -/
def applyStep (a : Artifacts) (s : TrainLogState) : TrainStep → TrainLogState
  | .writeParams =>
      { s with staging := s.staging ++ [("params.json", .jsonF (.obj a.params))] }
  | .writePerformance =>
      { s with staging := s.staging ++ [("performance.json", .jsonF (.obj a.performance))] }
  | .writeLabelEncoder =>
      { s with staging := s.staging ++ [("label_encoder.json", .encF a.label_encoder)] }
  | .writeTokenizer =>
      { s with staging := s.staging ++ [("tokenizer.json", .tokF a.tokenizer)] }
  | .writeModel =>
      { s with staging := s.staging ++ [("model.pt", .binF a.model.weights)] }
  | .publish => { s with artifactLocation := some s.staging }

/-- Execution of a prefix of the logging block from the initial state
(empty staging, no committed location). -/
def runSteps (a : Artifacts) (steps : List TrainStep) : TrainLogState :=
  steps.foldl (applyStep a) ⟨[], none⟩

theorem filter_eq_nil_of_forall_false {α : Type} {p : α → Bool} :
    ∀ l : List α, (∀ x ∈ l, p x = false) → l.filter p = [] := by
  intro l h
  induction l with
  | nil => rfl
  | cons hd t ih =>
      have hhd := h hd (by simp)
      simp only [List.filter_cons, hhd]
      exact ih (fun x hx => h x (by simp [hx]))

theorem filterMap_eq_nil_of_forall_none {α β : Type} {f : α → Option β} :
    ∀ l : List α, (∀ x ∈ l, f x = none) → l.filterMap f = [] := by
  intro l h
  induction l with
  | nil => rfl
  | cons hd t ih =>
      have hhd := h hd (by simp)
      simp only [List.filterMap_cons, hhd]
      exact ih (fun x hx => h x (by simp [hx]))

/-- Pruner configuration as constructed at main.py line 85:
`optuna.pruners.MedianPruner(n_startup_trials=5, n_warmup_steps=5)`. -/
structure PrunerConfig : Type where
  n_startup_trials : Nat
  n_warmup_steps : Nat
  deriving DecidableEq

/-- The pruner the `optimize` command installs (main.py line 85). -/
def tagifai_pruner : PrunerConfig :=
  { n_startup_trials := 5, n_warmup_steps := 5 }

/-- Terminal state of a trial: completed with its final objective value,
pruned (stopped early), or failed (its objective raised). -/
inductive TrialState : Type where
  | complete (value : Rat)
  | pruned
  | failed
  deriving DecidableEq

def TrialState.isComplete : TrialState → Bool
  | .complete _ => true
  | _ => false

/-- The deterministic script of one trial, as issued by the external
objective `train.objective` (main.py line 89): the hyperparameters the
trial samples, its derived `threshold` user attribute, the intermediate
objective values it reports at steps 0, 1, …, and its final objective
value — `none` models the objective raising an exception after its
reports. -/
structure TrialSpec : Type where
  params : List (String × JVal)
  threshold : JVal
  reports : List Rat
  result : Option Rat
  deriving DecidableEq

/-- The record of an executed trial: its submission number (monotonic,
0-based), sampled hyperparameters, `threshold` attribute, the intermediate
values it actually reported before finishing (a prefix of its script when
pruned), and its terminal state. -/
structure TrialRecord : Type where
  number : Nat
  params : List (String × JVal)
  threshold : JVal
  intermediates : List Rat
  state : TrialState
  deriving DecidableEq

/-- Trials ranked by the study: only completed trials enter the ranking. -/
def completedTrials (records : List TrialRecord) : List TrialRecord :=
  records.filter (fun r => r.state.isComplete)

/-- Number of completed trials so far. -/
def countCompleted (records : List TrialRecord) : Nat :=
  (completedTrials records).length

/-- Final objective value of a completed trial (0 for non-completed
trials, which never enter the ranking). -/
def TrialRecord.finalValue (r : TrialRecord) : Rat :=
  match r.state with
  | .complete v => v
  | _ => 0

def insertRat (x : Rat) : List Rat → List Rat
  | [] => [x]
  | y :: t => if x ≤ y then x :: y :: t else y :: insertRat x t

def sortRats : List Rat → List Rat
  | [] => []
  | x :: t => insertRat x (sortRats t)

/-- Median of a list of rationals (numpy convention: middle element of the
sorted list for odd length, mean of the two middle elements for even
length). -/
def median (l : List Rat) : Rat :=
  let s := sortRats l
  if l.length % 2 = 1 then s.getD (l.length / 2) 0
  else (s.getD (l.length / 2 - 1) 0 + s.getD (l.length / 2) 0) / 2

/-- The values the earlier trials reported at a given step: the pool the
median is taken over. -/
def poolAt (history : List TrialRecord) (step : Nat) : List Rat :=
  history.filterMap (fun r => r.intermediates.get? step)

/-- Modelled from the spec: the median pruning decision of the search
engine configured at main.py line 85 (the algorithm lives in the external
`optuna` package, not in this repository). Per §4.3, a trial is stopped at
an intermediate report only when the configured warm-up steps and startup
trials have elapsed (at least `n_warmup_steps` steps reported and at least
`n_startup_trials` trials completed) and its current value is strictly
worse than the median of the other trials' values at the same step (the
study maximizes, so worse means smaller). -/
def shouldPrune (cfg : PrunerConfig) (history : List TrialRecord)
    (step : Nat) (value : Rat) : Bool :=
  cfg.n_warmup_steps ≤ step &&
  cfg.n_startup_trials ≤ countCompleted history &&
  !(poolAt history step).isEmpty &&
  value < median (poolAt history step)

/-- Runs a trial's intermediate reports from a given step against the
pruning policy; returns the values actually reported and whether the trial
was stopped early. -/
def runReports (cfg : PrunerConfig) (history : List TrialRecord) :
    Nat → List Rat → List Rat × Bool
  | _, [] => ([], false)
  | step, v :: rest =>
      if shouldPrune cfg history step v then ([v], true)
      else
        let r := runReports cfg history (step + 1) rest
        (v :: r.1, r.2)

/-- Executes one trial against the history of earlier trials: the trial is
pruned if the policy fires at one of its reports; otherwise it completes
with its final objective value, or fails if its objective raises. -/
def runTrial (cfg : PrunerConfig) (history : List TrialRecord) (number : Nat)
    (spec : TrialSpec) : TrialRecord :=
  let r := runReports cfg history 0 spec.reports
  { number := number, params := spec.params, threshold := spec.threshold,
    intermediates := r.1,
    state :=
      if r.2 then .pruned
      else
        match spec.result with
        | some v => .complete v
        | none => .failed }

/-- Sequential execution of the trial scripts (trials are issued one at a
time, §5), each trial seeing the records of all earlier trials. -/
def runStudyFrom (cfg : PrunerConfig) (hist : List TrialRecord) :
    List TrialSpec → List TrialRecord
  | [] => []
  | spec :: rest =>
      let r := runTrial cfg hist hist.length spec
      r :: runStudyFrom cfg (hist ++ [r]) rest

/-- The full study over a deterministic sequence of trial scripts
(`study.optimize` at main.py lines 88-92). -/
def runStudy (cfg : PrunerConfig) (specs : List TrialSpec) : List TrialRecord :=
  runStudyFrom cfg [] specs

/-- `study.best_trial` for a maximizing study: the completed trial with
the greatest final value, earlier submission winning ties (Python `max`
keeps the first maximal element). -/
def pickBetter (acc : Option TrialRecord) (r : TrialRecord) : Option TrialRecord :=
  match acc with
  | none => some r
  | some b => if b.finalValue < r.finalValue then some r else some b

def best_trial (records : List TrialRecord) : Option TrialRecord :=
  (completedTrials records).foldl pickBetter none

inductive SearchError : Type where
  | searchExhausted
  deriving DecidableEq

/-- Python dict merge `{**a, **b}` (main.py line 100): keys of `a` keep
their position with `b`'s value when `b` also binds them, and `b`'s
remaining keys are appended. -/
def pyMerge (a b : List (String × JVal)) : List (String × JVal) :=
  a.map (fun kv => (kv.1, (alookup b kv.1).getD kv.2)) ++
    b.filter (fun kv => !(hasKey a kv.1))

/-- Python dict assignment `d[key] = v` (main.py line 101): overwrite in
place when the key exists (keeping its position), append otherwise. -/
def dictSet : List (String × JVal) → String → JVal → List (String × JVal)
  | [], key, v => [(key, v)]
  | (k0, v0) :: t, key, v =>
      if k0 = key then (key, v) :: t else (k0, v0) :: dictSet t key v

/-- The search pipeline of the `optimize` command (main.py lines 85-102):
run the study, take the best (completed) trial, and produce
`{**base_params, **best.params}` with `threshold` then set to the best
trial's `threshold` user attribute. With no completed trial,
`study.best_trial` raises — the spec's `SearchExhaustedError`. -/
def search (cfg : PrunerConfig) (base : List (String × JVal))
    (specs : List TrialSpec) : Except SearchError (List (String × JVal)) :=
  match best_trial (runStudy cfg specs) with
  | none => .error .searchExhausted
  | some best => .ok (dictSet (pyMerge base best.params) "threshold" best.threshold)

/-- A concrete artifact set used to instantiate the persistence theorems:
two tokenizer entries, two label-encoder classes, a 2×2 weight blob. -/
def sampleArtifacts : Artifacts where
  params := [("lr", .num (1/100)), ("num_epochs", .num 10)]
  label_encoder := ["computer-vision", "nlp"]
  tokenizer := ["the", "model"]
  model := { vocabSize := 2, numClasses := 2, weights := [1, -2, 3, 4] }
  performance := [("overall", .obj [("f1", .num (9/10))])]

/-- C3: the artifact-logging block of `train_model` stages all five
component writes inside the scoped temporary directory and commits them as
the run's artifact location only through the single final `publish`
(`mlflow.log_artifacts`) step; execution interrupted at any point before
that step (any proper prefix of the step sequence) leaves no artifact
location committed, so no partially populated bundle is ever observable —
every reachable state exposes either no bundle or the complete five-file
bundle. -/
theorem train_model_atomic_publish (a : Artifacts) (n : Nat) (hn : n ≤ 5) :
    (runSteps a (train_log_steps.take n)).artifactLocation = none ∧
    runSteps a train_log_steps =
      { staging := write_bundle a, artifactLocation := some (write_bundle a) } ∧
    (∀ m : Nat, (runSteps a (train_log_steps.take m)).artifactLocation = none ∨
      (runSteps a (train_log_steps.take m)).artifactLocation = some (write_bundle a)) := by
  refine ⟨?_, rfl, ?_⟩
  · interval_cases n <;> rfl
  · intro m
    by_cases hm : m ≤ 5
    · left
      interval_cases m <;> rfl
    · right
      have hlen : train_log_steps.length ≤ m := by
        simp only [train_log_steps, List.length]
        omega
      rw [List.take_of_length_le hlen]
      rfl

/-- C3 witness: the concrete run interrupted after three writes has no
committed artifact location, and the completed run commits the full
five-file bundle. -/
theorem train_model_atomic_publish_witness :
    (runSteps sampleArtifacts (train_log_steps.take 3)).artifactLocation = none ∧
    runSteps sampleArtifacts train_log_steps =
      { staging := write_bundle sampleArtifacts,
        artifactLocation := some (write_bundle sampleArtifacts) } := by
  have h := train_model_atomic_publish sampleArtifacts 3 (by decide)
  exact ⟨h.1, h.2.1⟩

/-- C4: reading back a directory produced by writing an artifact bundle
yields the bundle unchanged component-wise — parameters equal, label-encoder
and tokenizer state equal, model weights bit-identical, performance report
equal. The hypotheses state that the bundle is well formed: its model is
sized by its tokenizer's vocabulary and its label encoder's classes, with a
weight blob fitting those dimensions (true of every bundle a training run
produces). -/
theorem load_artifacts_write_bundle_roundtrip
    (store : String → Option Directory) (run_id : String) (a : Artifacts)
    (hv : a.model.vocabSize = a.tokenizer.length)
    (hc : a.model.numClasses = a.label_encoder.length)
    (hw : a.model.weights.length = a.model.vocabSize * a.model.numClasses)
    (hstore : store run_id = some (write_bundle a)) :
    load_artifacts store run_id = .ok a := by
  cases a with
  | mk p e t m perf =>
      cases m with
      | mk vs nc w =>
          simp only at hv hc hw hstore
          subst hv
          subst hc
          have h1 : load_dict (write_bundle ⟨p, e, t, ⟨t.length, e.length, w⟩, perf⟩)
              "params.json" = .ok p := rfl
          have h2 : load_label_encoder
              (write_bundle ⟨p, e, t, ⟨t.length, e.length, w⟩, perf⟩) = .ok e := rfl
          have h3 : load_tokenizer
              (write_bundle ⟨p, e, t, ⟨t.length, e.length, w⟩, perf⟩) = .ok t := rfl
          have h4 : load_model_state
              (write_bundle ⟨p, e, t, ⟨t.length, e.length, w⟩, perf⟩) = .ok w := rfl
          have h5 : load_dict (write_bundle ⟨p, e, t, ⟨t.length, e.length, w⟩, perf⟩)
              "performance.json" = .ok perf := rfl
          simp only [load_artifacts, hstore, h1, h2, h3, h4, h5, bind, Except.bind,
            Model.load_state_dict, initialize_model]
          rw [if_pos hw]

/-- C4 witness: the concrete sample bundle survives a write/read round
trip unchanged. -/
theorem load_artifacts_write_bundle_roundtrip_witness :
    load_artifacts (fun _ => some (write_bundle sampleArtifacts)) "run1" =
      .ok sampleArtifacts :=
  load_artifacts_write_bundle_roundtrip
    (fun _ => some (write_bundle sampleArtifacts)) "run1" sampleArtifacts
    rfl rfl rfl rfl

/-- C6: loading a run's artifacts fails with `runNotFound` when the run id
does not resolve; fails with `artifactCorruption` naming the weight
component when the bundle's `model.pt` file has been deleted (the other
components intact); and fails with `parseError` when the params file does
not parse as a JSON mapping. In each case the result is an error, never a
partially populated bundle. -/
theorem load_artifacts_error_taxonomy
    (store : String → Option Directory) (run_id : String) (a : Artifacts)
    (s : String) :
    (store run_id = none →
      load_artifacts store run_id = .error .runNotFound) ∧
    (store run_id = some (removeFile (write_bundle a) "model.pt") →
      load_artifacts store run_id = .error (.artifactCorruption "model.pt")) ∧
    (store run_id = some (("params.json", .rawF s) :: write_bundle a) →
      load_artifacts store run_id = .error .parseError) := by
  refine ⟨?_, ?_, ?_⟩
  · intro h
    simp [load_artifacts, h]
  · intro h
    have h1 : load_dict (removeFile (write_bundle a) "model.pt") "params.json" =
        .ok a.params := rfl
    have h2 : load_label_encoder (removeFile (write_bundle a) "model.pt") =
        .ok a.label_encoder := rfl
    have h3 : load_tokenizer (removeFile (write_bundle a) "model.pt") =
        .ok a.tokenizer := rfl
    have h4 : load_model_state (removeFile (write_bundle a) "model.pt") =
        .error (.artifactCorruption "model.pt") := rfl
    simp only [load_artifacts, h, h1, h2, h3, h4, bind, Except.bind]
  · intro h
    have h1 : load_dict (("params.json", FileContent.rawF s) :: write_bundle a)
        "params.json" = .error .parseError := rfl
    simp only [load_artifacts, h, h1, bind, Except.bind]

/-- C6 witness: the three failure modes evaluated at concrete stores built
over the sample bundle. -/
theorem load_artifacts_error_taxonomy_witness :
    load_artifacts (fun _ => none) "missing" = .error .runNotFound ∧
    load_artifacts
      (fun _ => some (removeFile (write_bundle sampleArtifacts) "model.pt"))
      "r1" = .error (.artifactCorruption "model.pt") ∧
    load_artifacts
      (fun _ => some (("params.json", .rawF "not json") :: write_bundle sampleArtifacts))
      "r2" = .error .parseError := by
  refine ⟨?_, ?_, ?_⟩
  · exact (load_artifacts_error_taxonomy (fun _ => none) "missing"
      sampleArtifacts "x").1 rfl
  · exact (load_artifacts_error_taxonomy
      (fun _ => some (removeFile (write_bundle sampleArtifacts) "model.pt"))
      "r1" sampleArtifacts "x").2.1 rfl
  · exact (load_artifacts_error_taxonomy
      (fun _ => some (("params.json", .rawF "not json") :: write_bundle sampleArtifacts))
      "r2" sampleArtifacts "not json").2.2 rfl

theorem runReports_snd_iff (cfg : PrunerConfig) (hist : List TrialRecord) :
    ∀ (reports : List Rat) (step : Nat),
      (runReports cfg hist step reports).2 = true ↔
        ∃ k v, reports.get? k = some v ∧ shouldPrune cfg hist (step + k) v = true := by
  intro reports
  induction reports with
  | nil =>
      intro step
      simp [runReports]
  | cons r rest ih =>
      intro step
      by_cases h : shouldPrune cfg hist step r = true
      · simp only [runReports, h, if_true]
        constructor
        · intro _
          exact ⟨0, r, rfl, by simpa using h⟩
        · intro _
          trivial
      · have hb : shouldPrune cfg hist step r = false := by
          cases hsp : shouldPrune cfg hist step r
          · rfl
          · exact absurd hsp h
        simp only [runReports, hb, Bool.false_eq_true, if_false]
        rw [ih (step + 1)]
        constructor
        · rintro ⟨k, v, hget, hsp⟩
          refine ⟨k + 1, v, by simpa using hget, ?_⟩
          rwa [show step + (k + 1) = step + 1 + k by omega]
        · rintro ⟨k, v, hget, hsp⟩
          cases k with
          | zero =>
              have hv : v = r := by
                simp at hget
                exact hget.symm
              exact absurd (by simpa [hv] using hsp) h
          | succ k2 =>
              refine ⟨k2, v, by simpa using hget, ?_⟩
              rwa [show step + 1 + k2 = step + (k2 + 1) by omega]

theorem runTrial_state_pruned_iff (cfg : PrunerConfig) (hist : List TrialRecord)
    (n : Nat) (spec : TrialSpec) :
    (runTrial cfg hist n spec).state = .pruned ↔
      (runReports cfg hist 0 spec.reports).2 = true := by
  cases hrun : (runReports cfg hist 0 spec.reports).2 with
  | true => simp [runTrial, hrun]
  | false =>
      simp only [runTrial, hrun, Bool.false_eq_true, if_false]
      cases spec.result <;> simp

theorem runTrial_state_not_pruned (cfg : PrunerConfig) (hist : List TrialRecord)
    (n : Nat) (spec : TrialSpec)
    (h : (runTrial cfg hist n spec).state ≠ .pruned) :
    (runTrial cfg hist n spec).state =
      (match spec.result with
       | some v => TrialState.complete v
       | none => TrialState.failed) := by
  cases hrun : (runReports cfg hist 0 spec.reports).2 with
  | true => exact absurd (by simp [runTrial, hrun]) h
  | false => simp [runTrial, hrun]

theorem runStudyFrom_append (cfg : PrunerConfig) :
    ∀ (s1 s2 : List TrialSpec) (hist : List TrialRecord),
      runStudyFrom cfg hist (s1 ++ s2) =
        runStudyFrom cfg hist s1 ++
          runStudyFrom cfg (hist ++ runStudyFrom cfg hist s1) s2 := by
  intro s1
  induction s1 with
  | nil =>
      intro s2 hist
      simp [runStudyFrom]
  | cons spec rest ih =>
      intro s2 hist
      simp only [List.cons_append, runStudyFrom]
      congr 1
      have h2 := ih s2 (hist ++ [runTrial cfg hist hist.length spec])
      simp only [List.append_assoc, List.singleton_append] at h2
      exact h2

theorem runStudyFrom_length (cfg : PrunerConfig) :
    ∀ (specs : List TrialSpec) (hist : List TrialRecord),
      (runStudyFrom cfg hist specs).length = specs.length := by
  intro specs
  induction specs with
  | nil => intro hist; rfl
  | cons spec rest ih =>
      intro hist
      simp [runStudyFrom, ih]

theorem runStudyFrom_numbers (cfg : PrunerConfig) :
    ∀ (specs : List TrialSpec) (hist : List TrialRecord),
      (runStudyFrom cfg hist specs).map (fun r => r.number) =
        List.range' hist.length specs.length := by
  intro specs
  induction specs with
  | nil => intro hist; rfl
  | cons spec rest ih =>
      intro hist
      simp only [runStudyFrom, List.map_cons, List.range']
      rw [ih (hist ++ [runTrial cfg hist hist.length spec])]
      simp [runTrial]

theorem le_of_mem_range : ∀ (n s x : Nat), x ∈ List.range' s n → s ≤ x := by
  intro n
  induction n with
  | zero => intro s x hx; simp [List.range'] at hx
  | succ m ih =>
      intro s x hx
      simp only [List.range'] at hx
      rw [List.mem_cons] at hx
      rcases hx with h | h
      · omega
      · have := ih (s + 1) x h
        omega

theorem pairwise_lt_range : ∀ (n s : Nat), (List.range' s n).Pairwise (· < ·) := by
  intro n
  induction n with
  | zero => intro s; simp [List.range']
  | succ m ih =>
      intro s
      simp only [List.range']
      exact List.Pairwise.cons
        (fun x hx => lt_of_lt_of_le (Nat.lt_succ_self s) (le_of_mem_range m (s + 1) x hx))
        (ih (s + 1))

theorem foldl_pickBetter_spec :
    ∀ (l : List TrialRecord) (acc : Option TrialRecord) (b : TrialRecord),
      l.Pairwise (fun x y => x.number < y.number) →
      (∀ a, acc = some a → ∀ r ∈ l, a.number < r.number) →
      l.foldl pickBetter acc = some b →
      (∀ r ∈ l, r.finalValue ≤ b.finalValue ∧
        (r.finalValue = b.finalValue → b.number ≤ r.number)) ∧
      (∀ a, acc = some a → a.finalValue ≤ b.finalValue ∧
        (a.finalValue = b.finalValue → b.number ≤ a.number)) ∧
      (b ∈ l ∨ acc = some b) := by
  intro l
  induction l with
  | nil =>
      intro acc b hpw hacc hfold
      simp only [List.foldl_nil] at hfold
      refine ⟨by simp, ?_, Or.inr hfold⟩
      intro a ha
      rw [hfold] at ha
      injection ha with ha
      subst ha
      exact ⟨le_refl _, fun _ => le_refl _⟩
  | cons r0 t ih =>
      intro acc b hpw hacc hfold
      rw [List.pairwise_cons] at hpw
      obtain ⟨hr0, hpwt⟩ := hpw
      simp only [List.foldl_cons] at hfold
      have hacc2 : ∀ a, pickBetter acc r0 = some a → ∀ r ∈ t, a.number < r.number := by
        intro a ha r hr
        cases acc with
        | none =>
            simp only [pickBetter] at ha
            injection ha with ha
            subst ha
            exact hr0 r hr
        | some a0 =>
            simp only [pickBetter] at ha
            by_cases hlt : a0.finalValue < r0.finalValue
            · rw [if_pos hlt] at ha
              injection ha with ha
              subst ha
              exact hr0 r hr
            · rw [if_neg hlt] at ha
              injection ha with ha
              subst ha
              exact hacc a0 rfl r (List.mem_cons_of_mem _ hr)
      obtain ⟨ht, hacc3, hmem⟩ := ih (pickBetter acc r0) b hpwt hacc2 hfold
      have hr0bound : r0.finalValue ≤ b.finalValue ∧
          (r0.finalValue = b.finalValue → b.number ≤ r0.number) := by
        cases acc with
        | none => exact hacc3 r0 rfl
        | some a0 =>
            by_cases hlt : a0.finalValue < r0.finalValue
            · exact hacc3 r0 (by simp only [pickBetter]; rw [if_pos hlt])
            · have ha0 := hacc3 a0 (by simp only [pickBetter]; rw [if_neg hlt])
              have hle : r0.finalValue ≤ a0.finalValue := not_lt.mp hlt
              refine ⟨le_trans hle ha0.1, ?_⟩
              intro htie
              have ha0tie : a0.finalValue = b.finalValue :=
                le_antisymm ha0.1 (htie ▸ hle)
              have h1 := ha0.2 ha0tie
              have h2 := hacc a0 rfl r0 (by simp)
              omega
      refine ⟨?_, ?_, ?_⟩
      · intro r hr
        rw [List.mem_cons] at hr
        rcases hr with hr | hr
        · subst hr
          exact hr0bound
        · exact ht r hr
      · intro a ha
        subst ha
        by_cases hlt : a.finalValue < r0.finalValue
        · refine ⟨le_of_lt (lt_of_lt_of_le hlt hr0bound.1), ?_⟩
          intro htie
          exact absurd htie (ne_of_lt (lt_of_lt_of_le hlt hr0bound.1))
        · exact hacc3 a (by simp only [pickBetter]; rw [if_neg hlt])
      · rcases hmem with hmem | hmem
        · exact Or.inl (List.mem_cons_of_mem _ hmem)
        · cases acc with
          | none =>
              simp only [pickBetter] at hmem
              injection hmem with hmem
              exact Or.inl (by rw [← hmem]; simp)
          | some a0 =>
              simp only [pickBetter] at hmem
              by_cases hlt : a0.finalValue < r0.finalValue
              · rw [if_pos hlt] at hmem
                injection hmem with hmem
                exact Or.inl (by rw [← hmem]; simp)
              · rw [if_neg hlt] at hmem
                exact Or.inr hmem

theorem alookup_append_of_some {l1 l2 : List (String × JVal)} {k : String}
    {v : JVal} (h : alookup l1 k = some v) : alookup (l1 ++ l2) k = some v := by
  induction l1 with
  | nil => simp [alookup] at h
  | cons hd t ih =>
      cases hd with
      | mk k0 v0 =>
          by_cases hk : k0 = k
          · simp only [List.cons_append, alookup, if_pos hk] at h ⊢
            exact h
          · simp only [List.cons_append, alookup, if_neg hk] at h ⊢
            exact ih h

theorem alookup_append_of_none {l1 l2 : List (String × JVal)} {k : String}
    (h : alookup l1 k = none) : alookup (l1 ++ l2) k = alookup l2 k := by
  induction l1 with
  | nil => simp [alookup]
  | cons hd t ih =>
      cases hd with
      | mk k0 v0 =>
          by_cases hk : k0 = k
          · simp only [alookup, if_pos hk] at h
            exact absurd h (by simp)
          · simp only [alookup, if_neg hk] at h
            simp only [List.cons_append, alookup, if_neg hk]
            exact ih h

theorem alookup_mapMerge (a b : List (String × JVal)) (k : String) :
    alookup (a.map (fun kv => (kv.1, (alookup b kv.1).getD kv.2))) k =
      (alookup a k).map (fun va => (alookup b k).getD va) := by
  induction a with
  | nil => simp [alookup]
  | cons hd t ih =>
      by_cases hk : hd.1 = k
      · subst hk
        simp [alookup, ih]
      · simp [alookup, if_neg hk, ih]

theorem alookup_filterNotIn (a b : List (String × JVal)) (k : String) :
    alookup (b.filter (fun kv => !(hasKey a kv.1))) k =
      if hasKey a k then none else alookup b k := by
  induction b with
  | nil => simp [alookup]
  | cons hd t ih =>
      by_cases hk : hd.1 = k
      · subst hk
        cases hmem : hasKey a hd.1 with
        | true => simp [List.filter_cons, hmem, ih]
        | false => simp [List.filter_cons, hmem, alookup, ih]
      · cases hmem : hasKey a hd.1 with
        | true => simp [List.filter_cons, hmem, ih, alookup, hk]
        | false => simp [List.filter_cons, hmem, alookup, hk, ih]

theorem alookup_pyMerge_of_some {base trial : List (String × JVal)} {k : String}
    {v : JVal} (h : alookup trial k = some v) :
    alookup (pyMerge base trial) k = some v := by
  unfold pyMerge
  cases hb : alookup base k with
  | some vb =>
      have hm := alookup_mapMerge base trial k
      rw [hb, h] at hm
      simp only [Option.map, Option.getD] at hm
      exact alookup_append_of_some hm
  | none =>
      have hm := alookup_mapMerge base trial k
      rw [hb] at hm
      simp only [Option.map] at hm
      rw [alookup_append_of_none hm, alookup_filterNotIn]
      simp [hasKey, hb, h]

theorem alookup_pyMerge_of_none {base trial : List (String × JVal)} {k : String}
    (h : alookup trial k = none) :
    alookup (pyMerge base trial) k = alookup base k := by
  unfold pyMerge
  cases hb : alookup base k with
  | some vb =>
      have hm := alookup_mapMerge base trial k
      rw [hb, h] at hm
      simp only [Option.map, Option.getD] at hm
      exact alookup_append_of_some hm
  | none =>
      have hm := alookup_mapMerge base trial k
      rw [hb] at hm
      simp only [Option.map] at hm
      rw [alookup_append_of_none hm, alookup_filterNotIn]
      simp [hasKey, hb, h]

theorem alookup_dictSet_self (d : List (String × JVal)) (key : String) (v : JVal) :
    alookup (dictSet d key v) key = some v := by
  induction d with
  | nil => simp [dictSet, alookup]
  | cons hd t ih =>
      cases hd with
      | mk k0 v0 =>
          by_cases hk : k0 = key
          · simp [dictSet, hk, alookup]
          · simp [dictSet, hk, alookup, ih]

theorem alookup_dictSet_other (d : List (String × JVal)) (key k : String) (v : JVal)
    (hne : k ≠ key) : alookup (dictSet d key v) k = alookup d k := by
  have hne2 : ¬(key = k) := fun h => hne (Eq.symm h)
  induction d with
  | nil =>
      simp only [dictSet, alookup]
      rw [if_neg hne2]
  | cons hd t ih =>
      cases hd with
      | mk k0 v0 =>
          by_cases hk : k0 = key
          · subst hk
            simp only [dictSet, if_pos rfl, alookup]
            rw [if_neg hne2, if_neg hne2]
          · by_cases hk2 : k0 = k
            · simp only [dictSet]
              rw [if_neg hk]
              simp only [alookup]
              rw [if_pos hk2, if_pos hk2]
            · simp only [dictSet]
              rw [if_neg hk]
              simp only [alookup]
              rw [if_neg hk2, if_neg hk2]
              exact ih

/-- C1: for a completed search over a fixed, deterministic sequence of
trial scripts, `study.best_trial` is a completed trial whose final
objective value is maximal among all completed trials, ties broken by
earliest submission number; `optimize` returns the base parameter set
merged with that trial's hyperparameters (`{**params, **best.params}`,
main.py line 100 — trial values override base values) with the trial's
`threshold` user attribute then written into the result (line 101). -/
theorem optimize_best_trial_selection
    (cfg : PrunerConfig) (base : List (String × JVal)) (specs : List TrialSpec)
    (best : TrialRecord)
    (hbest : best_trial (runStudy cfg specs) = some best) :
    best ∈ runStudy cfg specs ∧
    best.state.isComplete = true ∧
    (∀ r ∈ runStudy cfg specs, r.state.isComplete = true →
      r.finalValue ≤ best.finalValue ∧
      (r.finalValue = best.finalValue → best.number ≤ r.number)) ∧
    search cfg base specs =
      .ok (dictSet (pyMerge base best.params) "threshold" best.threshold) ∧
    alookup (dictSet (pyMerge base best.params) "threshold" best.threshold)
      "threshold" = some best.threshold ∧
    (∀ k v, k ≠ "threshold" → alookup best.params k = some v →
      alookup (dictSet (pyMerge base best.params) "threshold" best.threshold) k =
        some v) ∧
    (∀ k, k ≠ "threshold" → alookup best.params k = none →
      alookup (dictSet (pyMerge base best.params) "threshold" best.threshold) k =
        alookup base k) := by
  have hnum : (runStudy cfg specs).Pairwise (fun x y => x.number < y.number) := by
    have hmap := runStudyFrom_numbers cfg specs []
    simp only [List.length_nil] at hmap
    have hpr := pairwise_lt_range specs.length 0
    rw [← hmap] at hpr
    exact List.pairwise_map.mp hpr
  have hct : (completedTrials (runStudy cfg specs)).Pairwise
      (fun x y => x.number < y.number) :=
    List.Pairwise.sublist (List.filter_sublist _) hnum
  have hfold : (completedTrials (runStudy cfg specs)).foldl pickBetter none =
      some best := hbest
  obtain ⟨hbound, _, hmem⟩ := foldl_pickBetter_spec
    (completedTrials (runStudy cfg specs)) none best hct
    (by intro a ha; exact absurd ha (by simp)) hfold
  have hbestmem : best ∈ completedTrials (runStudy cfg specs) := by
    rcases hmem with hmem | hmem
    · exact hmem
    · exact absurd hmem (by simp)
  have hbm := List.mem_filter.mp hbestmem
  refine ⟨hbm.1, by simpa using hbm.2, ?_, ?_, ?_, ?_, ?_⟩
  · intro r hr hc
    exact hbound r (List.mem_filter.mpr ⟨hr, by simpa using hc⟩)
  · simp only [search, hbest]
  · exact alookup_dictSet_self _ _ _
  · intro k v hk hsome
    rw [alookup_dictSet_other _ _ _ _ hk]
    exact alookup_pyMerge_of_some hsome
  · intro k hk hnone
    rw [alookup_dictSet_other _ _ _ _ hk]
    exact alookup_pyMerge_of_none hnone

/-- Trial scripts of the spec's ranking scenario: three trials with final
objective values 0.5, 0.9, 0.3 and no intermediate reports. -/
def c1specs : List TrialSpec :=
  [{ params := [("num_layers", .num 2)], threshold := .num (mkRat 1 2),
     reports := [], result := some (mkRat 1 2) },
   { params := [("num_layers", .num 4)], threshold := .num (mkRat 3 5),
     reports := [], result := some (mkRat 9 10) },
   { params := [("num_layers", .num 8)], threshold := .num (mkRat 1 4),
     reports := [], result := some (mkRat 3 10) }]

def c1base : List (String × JVal) :=
  [("lr", .num (mkRat 1 100)), ("threshold", .num (mkRat 1 2))]

def c1best : TrialRecord :=
  { number := 1, params := [("num_layers", .num 4)],
    threshold := .num (mkRat 3 5),
    intermediates := [], state := .complete (mkRat 9 10) }

/-- C1 witness: on the scenario `[0.5, 0.9, 0.3]` the best trial is trial
1 and the returned parameter set is the base set with the trial's
overrides and its threshold attribute. -/
theorem optimize_best_trial_selection_witness :
    best_trial (runStudy tagifai_pruner c1specs) = some c1best ∧
    search tagifai_pruner c1base c1specs =
      .ok [("lr", .num (mkRat 1 100)), ("threshold", .num (mkRat 3 5)),
           ("num_layers", .num 4)] := by
  have h := optimize_best_trial_selection tagifai_pruner c1base c1specs c1best
    (by decide)
  refine ⟨by decide, h.2.2.2.1.trans ?_⟩
  exact congrArg Except.ok (by decide)

/-- C7: the trial at any position of a study runs against the records of
the earlier trials (first conjunct positions it in the study's output);
it is marked `pruned` exactly when at one of its intermediate reports the
warm-up-step and startup-trial thresholds have elapsed and its value is
strictly worse (smaller, as the study maximizes) than the median of the
other trials' values at the same step; a trial that is never stopped is
marked completed with its final value (or failed), never pruned. -/
theorem median_pruner_characterization (cfg : PrunerConfig)
    (specs1 : List TrialSpec) (spec : TrialSpec) (specs2 : List TrialSpec)
    (hist : List TrialRecord) (n : Nat) :
    (∃ tail, runStudy cfg (specs1 ++ spec :: specs2) =
      runStudy cfg specs1 ++
        runTrial cfg (runStudy cfg specs1) specs1.length spec :: tail) ∧
    ((runTrial cfg hist n spec).state = .pruned ↔
      ∃ k v, spec.reports.get? k = some v ∧
        cfg.n_warmup_steps ≤ k ∧
        cfg.n_startup_trials ≤ countCompleted hist ∧
        poolAt hist k ≠ [] ∧
        v < median (poolAt hist k)) ∧
    ((runTrial cfg hist n spec).state ≠ .pruned →
      (runTrial cfg hist n spec).state =
        (match spec.result with
         | some w => TrialState.complete w
         | none => TrialState.failed)) := by
  refine ⟨?_, ?_, runTrial_state_not_pruned cfg hist n spec⟩
  · have h := runStudyFrom_append cfg specs1 (spec :: specs2) []
    refine ⟨runStudyFrom cfg
      (runStudy cfg specs1 ++
        [runTrial cfg (runStudy cfg specs1) (runStudy cfg specs1).length spec])
      specs2, ?_⟩
    simp only [runStudy] at h ⊢
    simp only [List.nil_append] at h
    rw [h]
    simp only [runStudyFrom]
    rw [runStudyFrom_length]
  · rw [runTrial_state_pruned_iff, runReports_snd_iff]
    constructor
    · rintro ⟨k, v, hget, hsp⟩
      simp only [Nat.zero_add] at hsp
      simp only [shouldPrune, Bool.and_eq_true, decide_eq_true_eq] at hsp
      obtain ⟨⟨⟨hw, hs⟩, hemp⟩, hlt⟩ := hsp
      refine ⟨k, v, hget, hw, hs, ?_, hlt⟩
      intro hnil
      rw [hnil] at hemp
      simp at hemp
    · rintro ⟨k, v, hget, hw, hs, hne, hlt⟩
      refine ⟨k, v, hget, ?_⟩
      simp only [Nat.zero_add]
      simp only [shouldPrune, Bool.and_eq_true, decide_eq_true_eq]
      refine ⟨⟨⟨hw, hs⟩, ?_⟩, hlt⟩
      cases hp : poolAt hist k with
      | nil => exact absurd hp hne
      | cons x xs => simp

def c7hist : List TrialRecord :=
  [{ number := 0, params := [], threshold := .bool true,
     intermediates := [1], state := .complete 1 }]

def c7spec : TrialSpec :=
  { params := [], threshold := .bool true, reports := [0], result := some 0 }

/-- C7 witness: with one completed earlier trial, a pruner configured with
one startup trial and zero warm-up steps stops a trial reporting a value
below the median, while the code's 5/5 configuration lets the same trial
complete (warm-up/startup not yet elapsed). -/
theorem median_pruner_characterization_witness :
    (runTrial ⟨1, 0⟩ c7hist 1 c7spec).state = .pruned ∧
    (runTrial tagifai_pruner c7hist 1 c7spec).state = .complete 0 := by
  have h1 := median_pruner_characterization ⟨1, 0⟩ [] c7spec [] c7hist 1
  have h2 := median_pruner_characterization tagifai_pruner [] c7spec [] c7hist 1
  constructor
  · exact h1.2.1.mpr ⟨0, 0, rfl, by decide, by decide, by decide, by decide⟩
  · exact h2.2.2 (by decide)

/-- C8: a trial whose objective raises is marked failed (unless the pruner
already stopped it at an earlier report); failed trials never appear among
the completed trials that form the ranking; and when every trial of the
session fails, the search operation fails with the search-exhausted
error. -/
theorem failed_trials_and_exhaustion (cfg : PrunerConfig)
    (base : List (String × JVal)) (specs : List TrialSpec)
    (hist : List TrialRecord) (n : Nat) (spec : TrialSpec) :
    (spec.result = none →
      (runTrial cfg hist n spec).state = .failed ∨
      (runTrial cfg hist n spec).state = .pruned) ∧
    (∀ r ∈ runStudy cfg specs, r.state = .failed →
      r ∉ completedTrials (runStudy cfg specs)) ∧
    ((∀ r ∈ runStudy cfg specs, r.state = .failed) →
      search cfg base specs = .error .searchExhausted) := by
  refine ⟨?_, ?_, ?_⟩
  · intro hres
    cases hrun : (runReports cfg hist 0 spec.reports).2 with
    | true =>
        right
        simp [runTrial, hrun]
    | false =>
        left
        simp [runTrial, hrun, hres]
  · intro r hr hfail hmem
    have hc := (List.mem_filter.mp hmem).2
    rw [hfail] at hc
    simp [TrialState.isComplete] at hc
  · intro hall
    have hempty : completedTrials (runStudy cfg specs) = [] := by
      apply filter_eq_nil_of_forall_false
      intro r hr
      rw [hall r hr]
      rfl
    simp only [search, best_trial, hempty, List.foldl_nil]

def c8spec : TrialSpec :=
  { params := [], threshold := .bool true, reports := [], result := none }

/-- C8 witness: a session of two raising trials produces only failed
records and the search fails with the search-exhausted error. -/
theorem failed_trials_and_exhaustion_witness :
    search tagifai_pruner [("lr", JVal.num 1)] [c8spec, c8spec] =
      .error .searchExhausted ∧
    (runTrial tagifai_pruner [] 0 c8spec).state = .failed := by
  have h := failed_trials_and_exhaustion tagifai_pruner [("lr", JVal.num 1)]
    [c8spec, c8spec] [] 0 c8spec
  refine ⟨h.2.2 (by decide), ?_⟩
  rcases h.1 rfl with h2 | h2
  · exact h2
  · exact absurd h2 (by decide)

/-- C5: for comparable mappings `A` and `B`, the structural diff satisfies
`diff(A,B).added = diff(B,A).removed` and `diff(A,B).removed = diff(B,A).added`,
and for every mapping `A` (with unique keys, as Python dictionaries have),
`diff(A,A)` has empty `added`, `removed` and `changed` mappings. -/
theorem dict_diff_symmetry_and_refl (A B : List (String × JVal))
    (hA : (A.map Prod.fst).Nodup) :
    (dict_diff A B).added = (dict_diff B A).removed ∧
    (dict_diff A B).removed = (dict_diff B A).added ∧
    (dict_diff A A).added = [] ∧
    (dict_diff A A).removed = [] ∧
    (dict_diff A A).changed = [] := by
  refine ⟨rfl, rfl, ?_, ?_, ?_⟩
  · exact filter_eq_nil_of_forall_false A (fun kv hkv => by
      simp [hasKey, alookup_isSome_of_mem (show (kv.1, kv.2) ∈ A from hkv)])
  · exact filter_eq_nil_of_forall_false A (fun kv hkv => by
      simp [hasKey, alookup_isSome_of_mem (show (kv.1, kv.2) ∈ A from hkv)])
  · exact filterMap_eq_nil_of_forall_none A (fun kv hkv => by
      have := alookup_of_mem_nodup hA (show (kv.1, kv.2) ∈ A from hkv)
      simp [this])

/-- C5 witness: concrete evaluation of the diff symmetry and reflexivity
properties on the spec's scenario mappings. -/
theorem dict_diff_symmetry_and_refl_witness :
    (([("lr", JVal.num (1/10))].map Prod.fst).Nodup) ∧
    (dict_diff [("lr", JVal.num (1/10))]
        [("lr", JVal.num (2/10)), ("batch", JVal.num 32)]).added =
      (dict_diff [("lr", JVal.num (2/10)), ("batch", JVal.num 32)]
        [("lr", JVal.num (1/10))]).removed ∧
    (dict_diff [("lr", JVal.num (1/10))] [("lr", JVal.num (1/10))]).changed = [] := by
  have h := dict_diff_symmetry_and_refl [("lr", JVal.num (1/10))]
    [("lr", JVal.num (2/10)), ("batch", JVal.num 32)] (by decide)
  exact ⟨by decide, h.1, h.2.2.2.2⟩

/-- C10: in the `diff` command, an empty `tag_b` is resolved to the `name`
field of the first entry of the tag list returned by the remote tags API
before any comparison; a non-empty `tag_b` is used exactly as given. -/
theorem resolve_tag_b_spec (tag_b : String) (apiTags : List JVal)
    (fields : List (String × JVal)) (rest : List JVal) (v : JVal) :
    (tag_b ≠ "" → resolve_tag_b tag_b apiTags = some (.str tag_b)) ∧
    (apiTags = .obj fields :: rest → alookup fields "name" = some v →
      resolve_tag_b "" apiTags = some v) := by
  constructor
  · intro h
    simp [resolve_tag_b, h]
  · intro h hname
    simp [resolve_tag_b, h, JVal.getField, hname]

/-- C10 witness: concrete runs of the tag-b resolution, both for an empty
and for a non-empty `tag_b`. -/
theorem resolve_tag_b_spec_witness :
    resolve_tag_b "v1" [JVal.obj [("name", JVal.str "v2")]] = some (.str "v1") ∧
    resolve_tag_b "" [JVal.obj [("name", JVal.str "v2")]] = some (.str "v2") := by
  have h := resolve_tag_b_spec "v1" [JVal.obj [("name", JVal.str "v2")]]
    [("name", JVal.str "v2")] [] (.str "v2")
  refine ⟨h.1 (by decide), ?_⟩
  have h2 := resolve_tag_b_spec "" [JVal.obj [("name", JVal.str "v2")]]
    [("name", JVal.str "v2")] [] (.str "v2")
  exact h2.2 rfl rfl

/-- A token of a Python logical line. -/
inductive PyTok : Type where
  | name (s : String)
  | number (s : String)
  | op (s : String)
  deriving DecidableEq

/-- A lexical error: a character that starts no valid Python token in its
context. -/
inductive LexErr : Type where
  | invalidChar (c : Char)
  deriving DecidableEq

def isIdentStart (c : Char) : Bool := c.isAlpha || c = '_'

def isIdentCont (c : Char) : Bool := c.isAlphanum || c = '_'

def takeWhileList (p : Char → Bool) : List Char → List Char × List Char
  | [] => ([], [])
  | c :: rest =>
      if p c then
        let r := takeWhileList p rest
        (c :: r.1, r.2)
      else ([], c :: rest)

/-- Two-character operator/delimiter tokens of Python (the subset formed
from ASCII punctuation; note `"!="` is the only token containing `!`). -/
def twoCharOps : List String :=
  ["**", "//", "<<", ">>", "<=", ">=", "==", "!=", "->",
   "+=", "-=", "*=", "/=", "%=", "@=", "&=", "|=", "^=", ":="]

/-- Single-character operator/delimiter tokens of Python. `!` is absent:
in CPython a `!` not followed by `=` is a syntax error. -/
def singleCharOps : List Char :=
  ['+', '-', '*', '/', '%', '@', '&', '|', '^', '~', '<', '>',
   '(', ')', '[', ']', '\x7b', '\x7d', ':', ',', '.', ';', '=']

/-- Lexer for one Python logical line over the token classes it can
contain outside string literals: whitespace, comments, identifiers,
numbers, and operator/delimiter tokens, with `!` valid only as part of
`!=`. The first argument is recursion fuel (callers pass the line length
plus one, which suffices since every step consumes a character). -/
def lexChars : Nat → List Char → Except LexErr (List PyTok)
  | 0, _ => .error (.invalidChar ' ')
  | _ + 1, [] => .ok []
  | fuel + 1, c :: rest =>
      if c = ' ' || c = '\t' then lexChars fuel rest
      else if c = '#' then .ok []
      else if isIdentStart c then
        let r := takeWhileList isIdentCont rest
        do
          let ts ← lexChars fuel r.2
          .ok (.name (String.mk (c :: r.1)) :: ts)
      else if c.isDigit then
        let r := takeWhileList (fun d => d.isDigit || d = '.') rest
        do
          let ts ← lexChars fuel r.2
          .ok (.number (String.mk (c :: r.1)) :: ts)
      else if c = '!' then
        match rest with
        | '=' :: rest2 => do
            let ts ← lexChars fuel rest2
            .ok (.op "!=" :: ts)
        | _ => .error (.invalidChar '!')
      else
        match rest with
        | c2 :: rest2 =>
            if (String.mk [c, c2]) ∈ twoCharOps then do
              let ts ← lexChars fuel rest2
              .ok (.op (String.mk [c, c2]) :: ts)
            else if c ∈ singleCharOps then do
              let ts ← lexChars fuel (c2 :: rest2)
              .ok (.op (String.mk [c]) :: ts)
            else .error (.invalidChar c)
        | [] =>
            if c ∈ singleCharOps then .ok [.op (String.mk [c])]
            else .error (.invalidChar c)

def lexLine (s : String) : Except LexErr (List PyTok) :=
  lexChars (s.length + 1) s.data

/-- Line 231 of src/tagifai/main.py, verbatim: a bare marker left at module
top level, between the `diff` command and the decorator of
`behavioral_reevaluation`. -/
def main_py_line_231 : String := "USE RUN_ID HERE!!!"

/-- C2: line 231 of the module is not lexically valid Python — its `!`
characters (not followed by `=`) start no Python token — so the module
source can never be tokenized, hence never parsed, imported, or executed:
every CLI command of the module fails before any command body runs. A
control conjunct shows an actual source line of the module lexes fine, so
the failure is specific to the marker line. -/
theorem main_py_line_231_not_python :
    lexLine main_py_line_231 = .error (.invalidChar '!') ∧
    lexLine "@app.command()" =
      .ok [.op "@", .name "app", .op ".", .name "command", .op "(", .op ")"] := by
  constructor
  · rfl
  · rfl

/-- One positional-or-keyword parameter of a Python function signature:
its name and whether it carries a default value. -/
structure PyParam : Type where
  pname : String
  hasDefault : Bool
  deriving DecidableEq

/-- The signature of `load_artifacts` (main.py line 277):
`load_artifacts(run_id: str, device: torch.device = torch.device("cpu"))`. -/
def load_artifacts_signature : List PyParam :=
  [{ pname := "run_id", hasDefault := false },
   { pname := "device", hasDefault := true }]

/-- The Python `TypeError`s binding a call can raise. -/
inductive CallErr : Type where
  | unexpectedKeyword (kw : String)
  | missingArgument (nm : String)
  deriving DecidableEq

/-- Python call binding for a keyword-only call site: every keyword must
name a parameter of the signature (else `TypeError: got an unexpected
keyword argument`), and every parameter without a default must be bound
(else `TypeError: missing a required argument`). -/
def bindCall (params : List PyParam) (kwargs : List String) :
    Except CallErr Unit :=
  match kwargs.find? (fun kw => !(params.any (fun p => p.pname == kw))) with
  | some kw => .error (.unexpectedKeyword kw)
  | none =>
      match params.find? (fun p => !p.hasDefault && !(kwargs.contains p.pname)) with
      | some p => .error (.missingArgument p.pname)
      | none => .ok ()

/-- C9: the call `load_artifacts(model_dir=model_dir)` at main.py line 249
cannot bind against `load_artifacts`'s signature — `model_dir` is not a
parameter, so the call raises `TypeError` instead of loading a bundle by
run id as the spec's `reevaluate(run_id)` contract requires; the
signature-conforming call by run id (as the function's own docstring and
the `USE RUN_ID HERE!!!` marker intend) binds fine, and a call omitting the
required run id is also rejected. -/
theorem behavioral_reevaluation_call_bug :
    bindCall load_artifacts_signature ["model_dir"] =
      .error (.unexpectedKeyword "model_dir") ∧
    bindCall load_artifacts_signature ["run_id"] = .ok () ∧
    bindCall load_artifacts_signature [] = .error (.missingArgument "run_id") := by
  refine ⟨rfl, rfl, rfl⟩

end Tagifai
